import Mathlib

/-!
Verification of the container lifecycle controller in `src/Launcher.ts`
(class `SelenoidStandaloneService`).

The TypeScript class is shallowly embedded as pure Lean functions.  Each
method that talks to the container engine is modelled as a function from an
environment oracle (`Env`, which fixes the outcome of every external call:
file existence, the images listed in the browsers configuration, which
images are locally present, which listing / pull / run invocations fail)
to the list of externally visible events it emits (container-engine
commands and error-severity log lines) together with its returned or
thrown value (`Except`).  Strings produced by the engine are modelled as
`List Char` where the code inspects them character by character
(`stdout.split` in `doesImageExist` and the readiness poller).
-/

namespace Selenoid

/-- Container-engine commands issued by the service, mirroring the exact
`execa` docker invocations in the source: `rm -f name`,
`run <args>`, `pull image`, `image ls -f reference=image`,
`ps -f name=name`. -/
inductive DockerCmd where
  | rm (name : String)
  | run (args : List String)
  | pull (image : String)
  | imageLs (image : String)
  | ps (name : String)
deriving DecidableEq, Repr

/-- Externally visible events: a container-engine command, or an error-severity
log line (`this.log.error(...)` in the source; info/debug logs are not
modelled, no claim mentions them). -/
inductive Event where
  | cmd (c : DockerCmd)
  | errorLog
deriving DecidableEq, Repr

/-- The `ServiceOptions` interface of the source: every field is optional.
`none` models an absent key. -/
structure ServiceOptions where
  pathToBrowsersConfig : Option String := none
  terminateWdioOnError : Option Bool := none
  selenoidVersion : Option String := none
  skipAutoPullImage : Option Bool := none
  selenoidContainerName : Option String := none
  selenoidUiContainerName : Option String := none
  selenoidUiVersion : Option String := none
  port : Option Nat := none
  selenoidPort : Option Nat := none
  dockerArgs : Option (List String) := none
  selenoidUiArgs : Option (List String) := none
  selenoidArgs : Option (List String) := none
  skipAutoPullImages : Option Bool := none

/-- JavaScript `s.replace('C', 'c')`: lowercases the first occurrence of the
character `C` (string `replace` with a plain-string pattern replaces only
the first match). -/
def lowerFirstC : List Char → List Char
  | [] => []
  | c :: cs => if c = 'C' then 'c' :: cs else c :: lowerFirstC cs

/-- JavaScript `s.replace(/\\/g, '/')`: converts every backslash to a
forward slash (global regex). -/
def backslashesToSlashes (l : List Char) : List Char :=
  l.map fun c => if c = '\\' then '/' else c

/-- Separator normalization of Node `path.win32.join`: segments are joined
with a backslash and forward slashes are normalized to backslashes.
Dot-segment resolution is omitted; no claim depends on it. -/
def winJoinChars (a b : List Char) : List Char :=
  (a ++ '\\' :: b).map fun c => if c = '/' then '\\' else c

/-- Node `path.posix.join` restricted to joining two segments with a
forward slash (dot-segment resolution omitted; no claim depends on it). -/
def posixJoinChars (a b : List Char) : List Char :=
  a ++ '/' :: b

/-- The constructor computation of `this.selenoidBrowsersConfigPath`:
on win32, `path.join(process.cwd(), pathToBrowsersConfig)` followed by
`.replace('C', 'c').replace(/\\/g, '/')`; on every other platform, a plain
`path.join(process.cwd(), pathToBrowsersConfig)`. -/
def resolveConfigPathChars (platform : String) (cwd raw : List Char) : List Char :=
  if platform = "win32" then
    backslashesToSlashes (lowerFirstC (winJoinChars cwd raw))
  else
    posixJoinChars cwd raw

/-- Node `path.dirname`, simplified model: everything before the last
forward slash, or a single dot when the path has no slash.  The paths the
service feeds it only use forward slashes (win32 paths are converted in
the constructor first); the claims never inspect the value. -/
def dirnameChars (l : List Char) : List Char :=
  if '/' ∈ l then ((l.reverse.dropWhile fun c => c ≠ '/').tail).reverse
  else ['.']

/-- The resolved configuration the constructor builds into `this.options`,
`this.dockerSocketPath` and `this.selenoidBrowsersConfigPath`. -/
structure Config where
  pathToBrowsersConfig : String
  terminateWdioOnError : Bool
  selenoidVersion : String
  skipAutoPullImage : Bool
  selenoidContainerName : String
  selenoidUiContainerName : String
  selenoidUiVersion : String
  port : Nat
  selenoidPort : Nat
  dockerArgs : List String
  selenoidUiArgs : List String
  selenoidArgs : List String
  skipAutoPullImages : Option Bool
  dockerSocketPath : String
  selenoidBrowsersConfigPath : String

/-- The constructor: defaults are merged by object spread (an absent key
keeps the default; `skipAutoPullImages` appears in no default, so it stays
exactly as supplied), then the docker socket path and the browsers-config
mount path are resolved once from the host platform and working
directory. -/
def mkConfig (o : ServiceOptions) (platform cwd : String) : Config :=
  { pathToBrowsersConfig := o.pathToBrowsersConfig.getD "./browsers.json"
    terminateWdioOnError := o.terminateWdioOnError.getD true
    selenoidVersion := o.selenoidVersion.getD "latest-release"
    skipAutoPullImage := o.skipAutoPullImage.getD false
    selenoidContainerName := o.selenoidContainerName.getD "wdio_selenoid"
    selenoidUiContainerName := o.selenoidUiContainerName.getD "wdio_selenoidui"
    selenoidUiVersion := o.selenoidUiVersion.getD "latest-release"
    port := o.port.getD 8080
    selenoidPort := o.selenoidPort.getD 4444
    dockerArgs := o.dockerArgs.getD []
    selenoidUiArgs := o.selenoidUiArgs.getD []
    selenoidArgs := o.selenoidArgs.getD []
    skipAutoPullImages := o.skipAutoPullImages
    dockerSocketPath :=
      if platform = "win32" then "//var/run/docker.sock" else "/var/run/docker.sock"
    selenoidBrowsersConfigPath :=
      String.mk (resolveConfigPathChars platform cwd.data
        (o.pathToBrowsersConfig.getD "./browsers.json").data) }

/-- Environment oracle fixing the outcome of every external interaction of
one `onPrepare` / `onComplete` run. -/
structure Env where
  /-- Result of `fs.pathExists(this.selenoidBrowsersConfigPath)`. -/
  fileExists : Bool
  /-- The flattened image list of `require(this.selenoidBrowsersConfigPath)`;
  `none` models the `require` throwing (file missing or unparsable). -/
  configImages : Option (List String)
  /-- Images initially present in the local engine store; a listing for an
  image shows more than the header row exactly when the image is in this
  list, and a successful pull adds the image to it. -/
  present : List String
  /-- Which `image ls` invocations themselves fail (engine unreachable). -/
  lsFails : String → Bool
  /-- Which `pull` invocations fail. -/
  pullFails : String → Bool
  /-- Whether the `run` of the selenoid (gateway) container fails. -/
  runSelenoidFails : Bool
  /-- Stdout of a successful gateway `run`. -/
  runStdout : String
  /-- Stringified error of a failed gateway `run`. -/
  runErrMsg : String
  /-- Resolved value of a gateway `rm`. -/
  rmStdout : String

/-- Model of `stopSelenoid`: a forced removal of the gateway container; any failure
is swallowed and resolved, so only the command event is observable. -/
def stopSelenoid (cfg : Config) : List Event :=
  [.cmd (.rm cfg.selenoidContainerName)]

/-- Model of `stopSelenoidUi`: a forced removal of the UI container; failures are
swallowed. -/
def stopSelenoidUi (cfg : Config) : List Event :=
  [.cmd (.rm cfg.selenoidUiContainerName)]

/-- Model of `verifySelenoidBrowserConfig`: if the browsers file is missing, always
log an error, and additionally throw a `SevereServiceError` (modelled as
`Except.error`) when `terminateWdioOnError === true`. -/
def verifySelenoidBrowserConfig (cfg : Config) (env : Env) :
    List Event × Except String Unit :=
  if env.fileExists then ([], .ok ())
  else if cfg.terminateWdioOnError then
    ([.errorLog], .error ("Unable to find browsers.json at " ++ cfg.selenoidBrowsersConfigPath))
  else ([.errorLog], .ok ())

/-- JavaScript `stdout.split('\n')` on a character-list model of the
string: splitting on the newline character, empty string giving one empty
segment. -/
def splitLines : List Char → List (List Char)
  | [] => [[]]
  | c :: cs =>
    let r := splitLines cs
    if c = '\n' then [] :: r
    else (c :: r.headD []) :: r.tail

/-- Model of `doesImageExist`, at the level of the raw engine answer: `some stdout`
is a successful `image ls -f reference=img` whose output is split on
newlines, the image counting as present when at least two lines result
(header row plus at least one listed image); `none` is the listing command
itself failing, in which case the failure is logged and the image is
conservatively reported present.  The function always returns and never
throws. -/
def doesImageExist (im : String) (lsResult : Option (List Char)) :
    List Event × Bool :=
  match lsResult with
  | some stdout => ([.cmd (.imageLs im)], decide (2 ≤ (splitLines stdout).length))
  | none => ([.cmd (.imageLs im), .errorLog], true)

/-- Model of `doesImageExist` at the environment-oracle level: the raw stdout of
`doesImageExist` is abstracted by `Env` so that a successful listing shows
at least two lines exactly when the image is in the present set `pres`,
and `env.lsFails` picks the invocations that fail (logged, reported
present). -/
def doesImageExistT (env : Env) (pres : List String) (im : String) :
    List Event × Bool :=
  if env.lsFails im then ([.cmd (.imageLs im), .errorLog], true)
  else ([.cmd (.imageLs im)], pres.contains im)

/-- The `for (const image of browserImages)` loop of
`pullRequiredBrowserFiles`: each image is checked with `doesImageExist`;
an absent image is pulled.  The pull is awaited inside the one `try` that
wraps the whole function body, so a failing pull propagates out of the
loop (third component `false`) and the remaining images are not
processed.  A successful pull makes the image present for later
checks. -/
def pullImagesLoop (env : Env) : List String → List String → List Event × List String × Bool
  | [], pres => ([], pres, true)
  | im :: rest, pres =>
    let d := doesImageExistT env pres im
    if d.2 then
      let r := pullImagesLoop env rest pres
      (d.1 ++ r.1, r.2)
    else if env.pullFails im then
      (d.1 ++ [.cmd (.pull im)], pres, false)
    else
      let r := pullImagesLoop env rest (im :: pres)
      (d.1 ++ .cmd (.pull im) :: r.1, r.2)

/-- Model of `pullRequiredBrowserFiles`: `require` the browsers file (a throw is
caught by the outer catch, which logs and returns), flatten it to the
image list, and run the pull loop; if the loop was aborted by a throwing
pull, the outer catch logs an error.  The function itself always returns
normally. -/
def pullRequiredBrowserFiles (env : Env) (pres : List String) :
    List Event × List String :=
  match env.configImages with
  | none => ([.errorLog], pres)
  | some images =>
    let r := pullImagesLoop env images pres
    (if r.2.2 then r.1 else r.1 ++ [.errorLog], r.2.1)

/-- Model of `pullRequiredSelenoidUiVersion`: check the UI image, pull when absent;
here the `try` wraps only the pull, so a failing pull is logged locally
and the function returns normally. -/
def pullRequiredSelenoidUiVersion (cfg : Config) (env : Env) (pres : List String) :
    List Event × List String :=
  let image := "aerokube/selenoid-ui:" ++ cfg.selenoidUiVersion
  let d := doesImageExistT env pres image
  if d.2 then (d.1, pres)
  else if env.pullFails image then (d.1 ++ [.cmd (.pull image), .errorLog], pres)
  else (d.1 ++ [.cmd (.pull image)], image :: pres)

/-- Model of `pullRequiredSelenoidVersion`: same shape as the UI variant, for the
gateway image. -/
def pullRequiredSelenoidVersion (cfg : Config) (env : Env) (pres : List String) :
    List Event × List String :=
  let image := "aerokube/selenoid:" ++ cfg.selenoidVersion
  let d := doesImageExistT env pres image
  if d.2 then (d.1, pres)
  else if env.pullFails image then (d.1 ++ [.cmd (.pull image), .errorLog], pres)
  else (d.1 ++ [.cmd (.pull image)], image :: pres)

/-- The argument list of the gateway `docker run`, verbatim from
`startSelenoid`: note the hard-coded `"4444:4444"` port mapping. -/
def selenoidStartArgs (cfg : Config) : List String :=
  ["run", "-d", "--name", cfg.selenoidContainerName, "-p", "4444:4444",
   "-v", cfg.dockerSocketPath ++ ":/var/run/docker.sock",
   "-v", String.mk (dirnameChars cfg.selenoidBrowsersConfigPath.data) ++ "/:/etc/selenoid/:ro"]
  ++ cfg.dockerArgs
  ++ ["aerokube/selenoid:" ++ cfg.selenoidVersion]
  ++ cfg.selenoidArgs

/-- Model of `startSelenoid`: issue the gateway `run`; on failure throw a
`SevereServiceError` when `terminateWdioOnError === true`, otherwise
resolve with the stringified error. -/
def startSelenoid (cfg : Config) (env : Env) :
    List Event × Except String String :=
  if env.runSelenoidFails then
    if cfg.terminateWdioOnError then
      ([.cmd (.run (selenoidStartArgs cfg))],
        .error ("Unable to start selenoid container \n" ++ env.runErrMsg))
    else ([.cmd (.run (selenoidStartArgs cfg))], .ok env.runErrMsg)
  else ([.cmd (.run (selenoidStartArgs cfg))], .ok env.runStdout)

/-- The argument list of the UI `docker run`, verbatim from
`startSelenoidUi`: the configured `port` maps to container port 8080, the
container is linked to the gateway, and the configured `selenoidPort`
appears only inside the `--selenoid-uri` value. -/
def selenoidUiStartArgs (cfg : Config) : List String :=
  ["run", "-d", "--name", cfg.selenoidUiContainerName, "-p",
   toString cfg.port ++ ":8080", "--link", cfg.selenoidContainerName]
  ++ cfg.dockerArgs
  ++ ["aerokube/selenoid-ui:" ++ cfg.selenoidUiVersion,
      "--selenoid-uri",
      "http://" ++ cfg.selenoidContainerName ++ ":" ++ toString cfg.selenoidPort]
  ++ cfg.selenoidUiArgs

/-- One readiness check of `waitForSelenoidToBeRunning`: a successful
`docker ps` whose output has at least two lines counts as running; a
failing invocation (`none`) is treated as not yet running. -/
def psRunning (r : Option (List Char)) : Bool :=
  match r with
  | some stdout => decide (2 ≤ (splitLines stdout).length)
  | none => false

/-- The `for (let i = 0; i < 10; ...)` polling loop: argument `i` is the
index of the next attempt, the last argument the number of attempts left.
Returns the number of `ps` listing attempts made and the total
milliseconds slept (`sleep(1000)` after every unsuccessful attempt).  The
loop returns normally in every case. -/
def waitAux (ps : Nat → Option (List Char)) (i : Nat) : Nat → Nat × Nat
  | 0 => (0, 0)
  | n + 1 =>
    if psRunning (ps i) then (1, 0)
    else
      let r := waitAux ps (i + 1) n
      (r.1 + 1, r.2 + 1000)

/-- Model of `waitForSelenoidToBeRunning`: up to 10 attempts starting at index 0.
The oracle `ps` gives the engine answer of each attempt. -/
def waitForSelenoidToBeRunning (ps : Nat → Option (List Char)) : Nat × Nat :=
  waitAux ps 0 10

/-- Model of `onPrepare`: stop both containers, verify the browsers file
(policy-gated throw), unless `this.options.skipAutoPullImages` is truthy
pull the browser images, the UI image and the gateway image, then
`return this.startSelenoid()`.  The statements after that `return`
(readiness wait, UI start) are dead code and contribute nothing. -/
def onPrepare (cfg : Config) (env : Env) : List Event × Except String String :=
  let evs0 := stopSelenoid cfg ++ stopSelenoidUi cfg
  let v := verifySelenoidBrowserConfig cfg env
  match v.2 with
  | .error e => (evs0 ++ v.1, .error e)
  | .ok _ =>
    let pulls :=
      if cfg.skipAutoPullImages = some true then ([], env.present)
      else
        let b := pullRequiredBrowserFiles env env.present
        let u := pullRequiredSelenoidUiVersion cfg env b.2
        let s := pullRequiredSelenoidVersion cfg env u.2
        (b.1 ++ u.1 ++ s.1, s.2)
    let st := startSelenoid cfg env
    (evs0 ++ v.1 ++ pulls.1 ++ st.1, st.2)

/-- Model of `onComplete`: `return this.stopSelenoid()`; the following
`return this.stopSelenoidUi()` is dead code. -/
def onComplete (cfg : Config) (env : Env) : List Event × Except String String :=
  (stopSelenoid cfg, .ok env.rmStdout)

/-! ### Lemmas about line splitting -/

theorem length_splitLines (l : List Char) :
    (splitLines l).length = l.count '\n' + 1 := by
  induction l with
  | nil => simp [splitLines]
  | cons c cs ih =>
    by_cases hc : c = '\n'
    · simp [splitLines, hc, List.count_cons, ih]
    · have hpos : 0 < (splitLines cs).length := by omega
      simp only [splitLines, if_neg hc, List.length_cons, List.length_tail]
      rw [List.count_cons]
      simp only [beq_iff_eq, hc, if_false]
      omega

theorem two_le_splitLines_iff (l : List Char) :
    2 ≤ (splitLines l).length ↔ '\n' ∈ l := by
  rw [length_splitLines]
  constructor
  · intro h
    have : 0 < l.count '\n' := by omega
    exact List.count_pos_iff.mp this
  · intro h
    have : 0 < l.count '\n' := List.count_pos_iff.mpr h
    omega

/-! ### C5 -/

/-- C5: the image-existence check returns true exactly when the filtered
listing has two or more lines of output, equivalently when the listing
output contains a newline beyond the header row; when the listing command
itself fails it returns true (image conservatively reported present) and
logs the failure.  `doesImageExist` is a total function, so it raises
nothing in either case. -/
theorem c5_image_exists_lines (im : String) (out : List Char) :
    ((doesImageExist im (some out)).2 = true ↔ 2 ≤ (splitLines out).length) ∧
    ((doesImageExist im (some out)).2 = true ↔ '\n' ∈ out) ∧
    (doesImageExist im none).2 = true ∧
    Event.errorLog ∈ (doesImageExist im none).1 := by
  refine ⟨?_, ?_, rfl, ?_⟩
  · simp [doesImageExist]
  · simp [doesImageExist, two_le_splitLines_iff]
  · simp [doesImageExist]

/-! ### Lemmas about the readiness-polling loop -/

theorem waitAux_le (ps : Nat → Option (List Char)) :
    ∀ n i, (waitAux ps i n).1 ≤ n ∧ (waitAux ps i n).2 ≤ 1000 * n := by
  intro n
  induction n with
  | zero => intro i; simp [waitAux]
  | succ n ih =>
    intro i
    by_cases h : psRunning (ps i)
    · simp [waitAux, h]
    · have := ih (i + 1)
      simp only [waitAux, h, if_false, Bool.false_eq_true]
      constructor <;> omega

theorem waitAux_exhaust (ps : Nat → Option (List Char)) :
    ∀ n i, (∀ j, j < n → psRunning (ps (i + j)) = false) →
      waitAux ps i n = (n, 1000 * n) := by
  intro n
  induction n with
  | zero => intro i _; simp [waitAux]
  | succ n ih =>
    intro i h
    have h0 : psRunning (ps i) = false := by
      have := h 0 (Nat.succ_pos n)
      simpa using this
    have hrec : waitAux ps (i + 1) n = (n, 1000 * n) := by
      apply ih
      intro j hj
      have := h (j + 1) (by omega)
      have harith : i + (j + 1) = i + 1 + j := by omega
      rwa [harith] at this
    simp only [waitAux, h0, Bool.false_eq_true, if_false, hrec]
    rfl

theorem waitAux_success (ps : Nat → Option (List Char)) :
    ∀ n i k, k < n → (∀ j, j < k → psRunning (ps (i + j)) = false) →
      psRunning (ps (i + k)) = true →
      waitAux ps i n = (k + 1, 1000 * k) := by
  intro n
  induction n with
  | zero => intro i k hk; omega
  | succ n ih =>
    intro i k hk hfail hsucc
    match k with
    | 0 =>
      have : psRunning (ps i) = true := by simpa using hsucc
      simp [waitAux, this]
    | k + 1 =>
      have h0 : psRunning (ps i) = false := by
        have := hfail 0 (Nat.succ_pos k)
        simpa using this
      have hrec : waitAux ps (i + 1) n = (k + 1, 1000 * k) := by
        apply ih (i + 1) k (by omega)
        · intro j hj
          have := hfail (j + 1) (by omega)
          have harith : i + (j + 1) = i + 1 + j := by omega
          rwa [harith] at this
        · have harith : i + (k + 1) = i + 1 + k := by omega
          rwa [harith] at hsucc
      simp only [waitAux, h0, Bool.false_eq_true, if_false, hrec]
      rfl

/-! ### C6 -/

/-- C6: for every sequence of container-engine responses (a failing listing
counting as not yet running, per `psRunning`), the readiness wait makes at
most 10 listing attempts and sleeps at most 10000 ms in total; when all 10
attempts are exhausted it makes exactly 10 attempts with a one-second
sleep after each and returns normally with that value; and as soon as
attempt `k` shows at least two lines of output it returns immediately
after `k + 1` attempts, having slept exactly `1000 * k` ms (no sleep
follows the successful attempt). -/
theorem c6_wait_bounded (ps : Nat → Option (List Char)) (k : Nat) :
    (waitForSelenoidToBeRunning ps).1 ≤ 10 ∧
    (waitForSelenoidToBeRunning ps).2 ≤ 10000 ∧
    ((∀ j, j < 10 → psRunning (ps j) = false) →
      waitForSelenoidToBeRunning ps = (10, 10000)) ∧
    (k < 10 → (∀ j, j < k → psRunning (ps j) = false) → psRunning (ps k) = true →
      waitForSelenoidToBeRunning ps = (k + 1, 1000 * k)) := by
  refine ⟨(waitAux_le ps 10 0).1, (waitAux_le ps 10 0).2, ?_, ?_⟩
  · intro h
    have := waitAux_exhaust ps 10 0 (by intro j hj; simpa using h j hj)
    simpa [waitForSelenoidToBeRunning] using this
  · intro hk hfail hsucc
    have := waitAux_success ps 10 0 k hk
      (by intro j hj; simpa using hfail j hj) (by simpa using hsucc)
    simpa [waitForSelenoidToBeRunning] using this

/-- Concrete response sequence for the C6 witness: attempts 0 and 1 error,
attempt 2 lists a header row plus one container. -/
def psW : Nat → Option (List Char) :=
  fun j => if j = 2 then some ['h', '\n', 'x'] else none

/-- Witness for C6 at a concrete response sequence: success on the third
attempt yields 3 attempts and 2000 ms of sleep. -/
theorem c6_wait_bounded_witness :
    waitForSelenoidToBeRunning psW = (3, 2000) := by
  have h := (c6_wait_bounded psW 2).2.2.2 (by omega)
    (by
      intro j hj
      have : j = 0 ∨ j = 1 := by omega
      rcases this with h | h <;> simp [psW, h, psRunning])
    (by decide)
  simpa using h

/-! ### Shape lemmas for the prepare trace -/

/-- Events an image-resolution step can emit: an existence listing, a pull,
or an error log. -/
def pullish (e : Event) : Prop :=
  e = .errorLog ∨ (∃ im, e = .cmd (.imageLs im)) ∨ (∃ im, e = .cmd (.pull im))

theorem startSelenoid_events (cfg : Config) (env : Env) :
    (startSelenoid cfg env).1 = [Event.cmd (.run (selenoidStartArgs cfg))] := by
  unfold startSelenoid
  by_cases h1 : env.runSelenoidFails <;> by_cases h2 : cfg.terminateWdioOnError <;>
    simp [h1, h2]

theorem verify_events (cfg : Config) (env : Env) (e : Event)
    (he : e ∈ (verifySelenoidBrowserConfig cfg env).1) : e = .errorLog := by
  unfold verifySelenoidBrowserConfig at he
  by_cases h1 : env.fileExists <;> by_cases h2 : cfg.terminateWdioOnError <;>
    simp [h1, h2] at he <;> simp [he]

theorem doesImageExistT_events (env : Env) (pres : List String) (im : String)
    (e : Event) (he : e ∈ (doesImageExistT env pres im).1) : pullish e := by
  unfold doesImageExistT at he
  by_cases h : env.lsFails im
  · simp [h] at he
    rcases he with h' | h' <;> simp [pullish, h']
  · simp [h] at he
    simp [pullish, he]

theorem mem_pullImagesLoop (env : Env) (imgs : List String) :
    ∀ pres e, e ∈ (pullImagesLoop env imgs pres).1 → pullish e := by
  induction imgs with
  | nil => intro pres e he; simp [pullImagesLoop] at he
  | cons im rest ih =>
    intro pres e he
    unfold pullImagesLoop at he
    by_cases hd : (doesImageExistT env pres im).2
    · simp only [hd, if_true] at he
      rw [List.mem_append] at he
      rcases he with he | he
      · exact doesImageExistT_events env pres im e he
      · exact ih pres e he
    · by_cases hp : env.pullFails im
      · simp [hd, hp] at he
        rcases he with he | he
        · exact doesImageExistT_events env pres im e he
        · simp [pullish, he]
      · simp [hd, hp] at he
        rcases he with he | he | he
        · exact doesImageExistT_events env pres im e he
        · simp [pullish, he]
        · exact ih (im :: pres) e he

theorem mem_pullRequiredBrowserFiles (env : Env) (pres : List String) (e : Event)
    (he : e ∈ (pullRequiredBrowserFiles env pres).1) : pullish e := by
  unfold pullRequiredBrowserFiles at he
  rcases hc : env.configImages with _ | images <;> rw [hc] at he
  · simp at he
    simp [pullish, he]
  · by_cases hok : (pullImagesLoop env images pres).2.2
    · simp only [hok, if_true] at he
      exact mem_pullImagesLoop env images pres e he
    · simp [hok] at he
      rcases he with he | he
      · exact mem_pullImagesLoop env images pres e he
      · simp [pullish, he]

theorem mem_pullRequiredSelenoidUiVersion (cfg : Config) (env : Env)
    (pres : List String) (e : Event)
    (he : e ∈ (pullRequiredSelenoidUiVersion cfg env pres).1) : pullish e := by
  unfold pullRequiredSelenoidUiVersion at he
  set im := "aerokube/selenoid-ui:" ++ cfg.selenoidUiVersion with him
  by_cases hd : (doesImageExistT env pres im).2
  · simp only [hd, if_true] at he
    exact doesImageExistT_events env pres im e he
  · by_cases hp : env.pullFails im
    · simp [hd, hp] at he
      rcases he with he | he | he
      · exact doesImageExistT_events env pres im e he
      · simp [pullish, he]
      · simp [pullish, he]
    · simp [hd, hp] at he
      rcases he with he | he
      · exact doesImageExistT_events env pres im e he
      · simp [pullish, he]

theorem mem_pullRequiredSelenoidVersion (cfg : Config) (env : Env)
    (pres : List String) (e : Event)
    (he : e ∈ (pullRequiredSelenoidVersion cfg env pres).1) : pullish e := by
  unfold pullRequiredSelenoidVersion at he
  set im := "aerokube/selenoid:" ++ cfg.selenoidVersion with him
  by_cases hd : (doesImageExistT env pres im).2
  · simp only [hd, if_true] at he
    exact doesImageExistT_events env pres im e he
  · by_cases hp : env.pullFails im
    · simp [hd, hp] at he
      rcases he with he | he | he
      · exact doesImageExistT_events env pres im e he
      · simp [pullish, he]
      · simp [pullish, he]
    · simp [hd, hp] at he
      rcases he with he | he
      · exact doesImageExistT_events env pres im e he
      · simp [pullish, he]

/-- Every event of the prepare trace is one of: a removal of one of the two
configured containers, an error log, an image listing, a pull, or the one
gateway `run` with exactly `selenoidStartArgs`. -/
theorem mem_onPrepare_events (cfg : Config) (env : Env) (e : Event)
    (he : e ∈ (onPrepare cfg env).1) :
    e = .cmd (.rm cfg.selenoidContainerName) ∨
    e = .cmd (.rm cfg.selenoidUiContainerName) ∨
    pullish e ∨
    e = .cmd (.run (selenoidStartArgs cfg)) := by
  simp only [onPrepare] at he
  split at he <;> (try split at he) <;>
    simp only [stopSelenoid, stopSelenoidUi, startSelenoid_events, List.append_nil,
      List.append_assoc, List.nil_append, List.mem_append, List.mem_singleton] at he
  · rcases he with he | he | he
    · exact Or.inl he
    · exact Or.inr (Or.inl he)
    · exact Or.inr (Or.inr (Or.inl (Or.inl (verify_events cfg env e he))))
  · rcases he with he | he | he | he
    · exact Or.inl he
    · exact Or.inr (Or.inl he)
    · exact Or.inr (Or.inr (Or.inl (Or.inl (verify_events cfg env e he))))
    · exact Or.inr (Or.inr (Or.inr he))
  · rcases he with he | he | he | he | he | he | he
    · exact Or.inl he
    · exact Or.inr (Or.inl he)
    · exact Or.inr (Or.inr (Or.inl (Or.inl (verify_events cfg env e he))))
    · exact Or.inr (Or.inr (Or.inl (mem_pullRequiredBrowserFiles env env.present e he)))
    · exact Or.inr (Or.inr (Or.inl (mem_pullRequiredSelenoidUiVersion cfg env _ e he)))
    · exact Or.inr (Or.inr (Or.inl (mem_pullRequiredSelenoidVersion cfg env _ e he)))
    · exact Or.inr (Or.inr (Or.inr he))

/-- The gateway and UI run commands always differ: argument 6 is the second
volume flag for the gateway but the link flag for the UI. -/
theorem selenoidStartArgs_ne_ui (cfg : Config) :
    selenoidStartArgs cfg ≠ selenoidUiStartArgs cfg := by
  intro h
  have h6 : (selenoidStartArgs cfg)[6]? = (selenoidUiStartArgs cfg)[6]? := by rw [h]
  have ha : (selenoidStartArgs cfg)[6]? = some "-v" := rfl
  have hb : (selenoidUiStartArgs cfg)[6]? = some "--link" := rfl
  rw [ha, hb] at h6
  simp at h6

theorem ps_not_mem_onPrepare (cfg : Config) (env : Env) (n : String) :
    Event.cmd (.ps n) ∉ (onPrepare cfg env).1 := by
  intro he
  rcases mem_onPrepare_events cfg env _ he with h | h | h | h
  · simp at h
  · simp at h
  · rcases h with h | ⟨im, h⟩ | ⟨im, h⟩ <;> simp at h
  · simp at h

theorem runUi_not_mem_onPrepare (cfg : Config) (env : Env) :
    Event.cmd (.run (selenoidUiStartArgs cfg)) ∉ (onPrepare cfg env).1 := by
  intro he
  rcases mem_onPrepare_events cfg env _ he with h | h | h | h
  · simp at h
  · simp at h
  · rcases h with h | ⟨im, h⟩ | ⟨im, h⟩ <;> simp at h
  · have : selenoidUiStartArgs cfg = selenoidStartArgs cfg := by
      have := h
      simp only [Event.cmd.injEq, DockerCmd.run.injEq] at this
      exact this
    exact selenoidStartArgs_ne_ui cfg this.symm

/-! ### C1 -/

/-- C1: in the prepare sequence the two trailing steps are unreachable: no
readiness-polling `ps` command and no UI-container `run` command ever
appears in the prepare trace, for any configuration and environment; and
the completion trace consists of exactly the gateway removal, so the UI
stop after it never executes. -/
theorem c1_trailing_steps_unreachable (cfg : Config) (env : Env) :
    (∀ n, Event.cmd (.ps n) ∉ (onPrepare cfg env).1) ∧
    Event.cmd (.run (selenoidUiStartArgs cfg)) ∉ (onPrepare cfg env).1 ∧
    (onComplete cfg env).1 = [Event.cmd (.rm cfg.selenoidContainerName)] := by
  exact ⟨fun n => ps_not_mem_onPrepare cfg env n, runUi_not_mem_onPrepare cfg env, rfl⟩

/-! ### Result lemmas for the prepare sequence -/

theorem verify_ok_of_fileExists (cfg : Config) (env : Env)
    (hf : env.fileExists = true) :
    verifySelenoidBrowserConfig cfg env = ([], .ok ()) := by
  simp [verifySelenoidBrowserConfig, hf]

theorem verify_ok_of_noterminate (cfg : Config) (env : Env)
    (hf : env.fileExists = false) (ht : cfg.terminateWdioOnError = false) :
    verifySelenoidBrowserConfig cfg env = ([.errorLog], .ok ()) := by
  simp [verifySelenoidBrowserConfig, hf, ht]

theorem onPrepare_of_verify_ok (cfg : Config) (env : Env)
    (h : (verifySelenoidBrowserConfig cfg env).2 = .ok ()) :
    (onPrepare cfg env).2 = (startSelenoid cfg env).2 ∧
    Event.cmd (.run (selenoidStartArgs cfg)) ∈ (onPrepare cfg env).1 := by
  constructor
  · simp only [onPrepare, h]
  · simp [onPrepare, h, startSelenoid_events]

theorem startSelenoid_result_fail (cfg : Config) (env : Env)
    (hr : env.runSelenoidFails = true) :
    (startSelenoid cfg env).2 =
      if cfg.terminateWdioOnError then
        .error ("Unable to start selenoid container \n" ++ env.runErrMsg)
      else .ok env.runErrMsg := by
  by_cases ht : cfg.terminateWdioOnError <;> simp [startSelenoid, hr, ht]

theorem startSelenoid_result_noterminate (cfg : Config) (env : Env)
    (ht : cfg.terminateWdioOnError = false) :
    (startSelenoid cfg env).2 =
      .ok (if env.runSelenoidFails then env.runErrMsg else env.runStdout) := by
  by_cases hr : env.runSelenoidFails <;> simp [startSelenoid, hr, ht]

theorem onPrepare_missing_terminate (cfg : Config) (env : Env)
    (hf : env.fileExists = false) (ht : cfg.terminateWdioOnError = true) :
    onPrepare cfg env =
      ([.cmd (.rm cfg.selenoidContainerName), .cmd (.rm cfg.selenoidUiContainerName),
        .errorLog],
        .error ("Unable to find browsers.json at " ++ cfg.selenoidBrowsersConfigPath)) := by
  simp [onPrepare, verifySelenoidBrowserConfig, stopSelenoid, stopSelenoidUi, hf, ht]

/-! ### C2 -/

/-- C2: when the browsers-configuration file is absent, prepare always logs
an error; it throws exactly when the terminate-on-error policy is enabled,
and in that case the whole trace is the two idempotent removals plus the
error log, so no engine start (or any other) command is issued after the
raise; with the policy disabled prepare returns normally and the gateway
`run` command is still issued. -/
theorem c2_missing_config_policy (cfg : Config) (env : Env)
    (hf : env.fileExists = false) :
    Event.errorLog ∈ (onPrepare cfg env).1 ∧
    ((∃ msg, (onPrepare cfg env).2 = .error msg) ↔ cfg.terminateWdioOnError = true) ∧
    (cfg.terminateWdioOnError = true →
      (onPrepare cfg env).1 =
        [.cmd (.rm cfg.selenoidContainerName), .cmd (.rm cfg.selenoidUiContainerName),
         .errorLog]) ∧
    (cfg.terminateWdioOnError = false →
      Event.cmd (.run (selenoidStartArgs cfg)) ∈ (onPrepare cfg env).1 ∧
      ∃ s, (onPrepare cfg env).2 = .ok s) := by
  rcases Bool.eq_false_or_eq_true cfg.terminateWdioOnError with ht | ht
  · have heq := onPrepare_missing_terminate cfg env hf ht
    refine ⟨?_, ?_, ?_, ?_⟩
    · rw [heq]; simp
    · rw [heq]; simp [ht]
    · intro _; rw [heq]
    · intro h; rw [h] at ht; cases ht
  · have hv := verify_ok_of_noterminate cfg env hf ht
    have hrun := onPrepare_of_verify_ok cfg env (by rw [hv])
    refine ⟨?_, ?_, ?_, ?_⟩
    · simp only [onPrepare, hv]
      simp
    · rw [hrun.1, startSelenoid_result_noterminate cfg env ht]
      simp [ht]
    · intro h; rw [h] at ht; cases ht
    · intro _
      refine ⟨hrun.2, ?_⟩
      rw [hrun.1, startSelenoid_result_noterminate cfg env ht]
      exact ⟨_, rfl⟩

/-- Default configuration resolved on a linux host, used by the concrete
witnesses. -/
def cfgW : Config := mkConfig {} "linux" "/work"

/-- Environment where the browsers-configuration file is missing and
nothing else fails. -/
def envNoFile : Env :=
  { fileExists := false, configImages := none, present := [],
    lsFails := fun _ => false, pullFails := fun _ => false,
    runSelenoidFails := false, runStdout := "cid", runErrMsg := "boom",
    rmStdout := "rid" }

/-- Witness for C2: the default configuration terminates on error, so with
the browsers file missing the prepare trace is exactly the two removals
plus the error log and the result is a raise. -/
theorem c2_missing_config_policy_witness :
    Event.errorLog ∈ (onPrepare cfgW envNoFile).1 ∧
    ((∃ msg, (onPrepare cfgW envNoFile).2 = .error msg) ↔
      cfgW.terminateWdioOnError = true) ∧
    (cfgW.terminateWdioOnError = true →
      (onPrepare cfgW envNoFile).1 =
        [.cmd (.rm cfgW.selenoidContainerName), .cmd (.rm cfgW.selenoidUiContainerName),
         .errorLog]) ∧
    (cfgW.terminateWdioOnError = false →
      Event.cmd (.run (selenoidStartArgs cfgW)) ∈ (onPrepare cfgW envNoFile).1 ∧
      ∃ s, (onPrepare cfgW envNoFile).2 = .ok s) :=
  c2_missing_config_policy cfgW envNoFile rfl

/-! ### C3 -/

/-- C3: when the gateway run command fails (and the browsers file exists,
so prepare reaches the start step), prepare raises the session-aborting
error exactly when the terminate-on-error policy is enabled; no later step
of the sequence (readiness polling, UI start) ever runs; and with the
policy disabled the failure comes back as the resolved non-fatal result
instead of an exception. -/
theorem c3_gateway_start_failure_policy (cfg : Config) (env : Env)
    (hf : env.fileExists = true) (hr : env.runSelenoidFails = true) :
    ((onPrepare cfg env).2 =
        .error ("Unable to start selenoid container \n" ++ env.runErrMsg) ↔
      cfg.terminateWdioOnError = true) ∧
    (cfg.terminateWdioOnError = false → (onPrepare cfg env).2 = .ok env.runErrMsg) ∧
    (∀ n, Event.cmd (.ps n) ∉ (onPrepare cfg env).1) ∧
    Event.cmd (.run (selenoidUiStartArgs cfg)) ∉ (onPrepare cfg env).1 := by
  have hv := verify_ok_of_fileExists cfg env hf
  have hres := (onPrepare_of_verify_ok cfg env (by rw [hv])).1
  refine ⟨?_, ?_, fun n => ps_not_mem_onPrepare cfg env n, runUi_not_mem_onPrepare cfg env⟩
  · rw [hres, startSelenoid_result_fail cfg env hr]
    rcases Bool.eq_false_or_eq_true cfg.terminateWdioOnError with ht | ht <;> simp [ht]
  · intro ht
    rw [hres, startSelenoid_result_noterminate cfg env ht, hr]
    simp

/-- Environment where the browsers file exists but the gateway run command
fails; image resolution finds everything present. -/
def envRunFail : Env :=
  { fileExists := true, configImages := some [], present := [],
    lsFails := fun _ => true, pullFails := fun _ => false,
    runSelenoidFails := true, runStdout := "cid", runErrMsg := "boom",
    rmStdout := "rid" }

/-- Witness for C3 at the default configuration: the failed gateway start
raises, and no later-step command is in the trace. -/
theorem c3_gateway_start_failure_policy_witness :
    ((onPrepare cfgW envRunFail).2 =
        .error ("Unable to start selenoid container \n" ++ envRunFail.runErrMsg) ↔
      cfgW.terminateWdioOnError = true) ∧
    (cfgW.terminateWdioOnError = false →
      (onPrepare cfgW envRunFail).2 = .ok envRunFail.runErrMsg) ∧
    (∀ n, Event.cmd (.ps n) ∉ (onPrepare cfgW envRunFail).1) ∧
    Event.cmd (.run (selenoidUiStartArgs cfgW)) ∉ (onPrepare cfgW envRunFail).1 :=
  c3_gateway_start_failure_policy cfgW envRunFail rfl rfl

/-! ### C7 -/

/-- Environment with one browser image listed in the configuration file,
no image present locally, and no failing engine call. -/
def envPull : Env :=
  { fileExists := true, configImages := some ["repo/img:1"], present := [],
    lsFails := fun _ => false, pullFails := fun _ => false,
    runSelenoidFails := false, runStdout := "cid", runErrMsg := "boom",
    rmStdout := "rid" }

/-- C7: with the image-pull-skip option enabled (`skipAutoPullImages`
truthy) no pull command is ever issued during prepare, whatever the
environment; the constructor applies no default to this option, so by
default it is absent (falsy) and prepare does pull, as the concrete
default-configuration run with an absent image shows. -/
theorem c7_skip_pull (cfg : Config) (env : Env)
    (h : cfg.skipAutoPullImages = some true) :
    (∀ im, Event.cmd (.pull im) ∉ (onPrepare cfg env).1) ∧
    (∀ o : ServiceOptions, ∀ p w, (mkConfig o p w).skipAutoPullImages =
      o.skipAutoPullImages) ∧
    Event.cmd (.pull "repo/img:1") ∈ (onPrepare cfgW envPull).1 := by
  refine ⟨?_, fun o p w => rfl, ?_⟩
  · intro im hmem
    simp only [onPrepare] at hmem
    split at hmem
    · simp only [stopSelenoid, stopSelenoidUi, List.append_assoc, List.mem_append,
        List.mem_singleton] at hmem
      rcases hmem with h1 | h1 | h1
      · simp at h1
      · simp at h1
      · have := verify_events cfg env _ h1
        simp at this
    · rw [if_pos h] at hmem
      simp only [stopSelenoid, stopSelenoidUi, startSelenoid_events, List.append_nil,
        List.append_assoc, List.mem_append, List.mem_singleton] at hmem
      rcases hmem with h1 | h1 | h1 | h1
      · simp at h1
      · simp at h1
      · have := verify_events cfg env _ h1
        simp at this
      · simp at h1
  · decide

/-- Configuration with pull-skipping enabled. -/
def cfgSkip : Config := mkConfig { skipAutoPullImages := some true } "linux" "/work"

/-- Witness for C7: with pull-skipping enabled, even the image that the
environment reports absent is never pulled. -/
theorem c7_skip_pull_witness :
    Event.cmd (.pull "repo/img:1") ∉ (onPrepare cfgSkip envPull).1 :=
  (c7_skip_pull cfgSkip envPull rfl).1 "repo/img:1"

/-! ### Lemmas about the browser-image pull loop (C4) -/

theorem doesImageExistT_no_pull (env : Env) (pres : List String) (im j : String) :
    Event.cmd (.pull j) ∉ (doesImageExistT env pres im).1 := by
  unfold doesImageExistT
  by_cases h : env.lsFails im <;> simp [h]

theorem doesImageExistT_false (env : Env) (pres : List String) (a : String)
    (h : (doesImageExistT env pres a).2 = false) :
    env.lsFails a = false ∧ a ∉ pres := by
  unfold doesImageExistT at h
  by_cases hl : env.lsFails a
  · simp [hl] at h
  · simp [hl] at h ⊢
    exact h

/-- An image that is already in the present set is never pulled by the
loop, whatever comes later (the present set only grows). -/
theorem pull_not_mem_of_present (env : Env) (imgs : List String) :
    ∀ pres im, im ∈ pres → Event.cmd (.pull im) ∉ (pullImagesLoop env imgs pres).1 := by
  induction imgs with
  | nil => intro pres im _ hmem; simp [pullImagesLoop] at hmem
  | cons a rest ih =>
    intro pres im hpres hmem
    unfold pullImagesLoop at hmem
    by_cases hd : (doesImageExistT env pres a).2
    · simp only [hd, if_true] at hmem
      rw [List.mem_append] at hmem
      rcases hmem with hmem | hmem
      · exact doesImageExistT_no_pull env pres a im hmem
      · exact ih pres im hpres hmem
    · have hna := (doesImageExistT_false env pres a (by simpa using hd)).2
      by_cases hp : env.pullFails a
      · simp [hd, hp] at hmem
        rcases hmem with hmem | hmem
        · exact doesImageExistT_no_pull env pres a im hmem
        · have heq : im = a := by simpa using hmem
          rw [← heq] at hna
          exact hna hpres
      · simp [hd, hp] at hmem
        rcases hmem with hmem | hmem | hmem
        · exact doesImageExistT_no_pull env pres a im hmem
        · have heq : im = a := by simpa using hmem
          rw [← heq] at hna
          exact hna hpres
        · exact ih (a :: pres) im (List.mem_cons_of_mem a hpres) hmem

/-- When no pull fails, every image of the list that is initially absent
(and whose listing succeeds) is pulled exactly once. -/
theorem pull_count_one (env : Env) (imgs : List String)
    (hp : ∀ j, env.pullFails j = false) :
    ∀ pres im, env.lsFails im = false → im ∉ pres → im ∈ imgs →
      (pullImagesLoop env imgs pres).1.count (Event.cmd (.pull im)) = 1 := by
  induction imgs with
  | nil => intro pres im _ _ him; simp at him
  | cons a rest ih =>
    intro pres im hl hnp him
    have hd0 : (doesImageExistT env pres im).2 = (pres.contains im) := by
      simp [doesImageExistT, hl]
    unfold pullImagesLoop
    by_cases hd : (doesImageExistT env pres a).2
    · have hne : im ≠ a := by
        intro h
        rw [← h] at hd
        rw [hd0] at hd
        simp at hd
        exact hnp hd
      have him' : im ∈ rest := by
        rcases List.mem_cons.mp him with h | h
        · exact absurd h hne
        · exact h
      simp only [hd, if_true]
      rw [List.count_append,
        List.count_eq_zero.mpr (doesImageExistT_no_pull env pres a im),
        ih pres im hl hnp him']
    · have hpa := hp a
      simp only [hd, Bool.false_eq_true, if_false, hpa]
      by_cases hia : im = a
      · rw [← hia]
        rw [List.count_append,
          List.count_eq_zero.mpr (doesImageExistT_no_pull env pres im im)]
        rw [List.count_cons]
        rw [List.count_eq_zero.mpr
          (pull_not_mem_of_present env rest (im :: pres) im (List.mem_cons_self im pres))]
        simp
      · have him' : im ∈ rest := by
          rcases List.mem_cons.mp him with h | h
          · exact absurd h hia
          · exact h
        have hnp' : im ∉ a :: pres := by
          intro h
          rcases List.mem_cons.mp h with h | h
          · exact hia h
          · exact hnp h
        rw [List.count_append,
          List.count_eq_zero.mpr (doesImageExistT_no_pull env pres a im)]
        rw [List.count_cons]
        rw [ih (a :: pres) im hl hnp' him']
        simp [Ne.symm hia]

/-- A failing pull of an absent image ends the loop at that image: the
remaining images receive neither an existence check nor a pull. -/
theorem pullImagesLoop_abort (env : Env) (a : String) (pres : List String)
    (hd : (doesImageExistT env pres a).2 = false) (hpf : env.pullFails a = true) :
    ∀ rest, pullImagesLoop env (a :: rest) pres =
      ((doesImageExistT env pres a).1 ++ [Event.cmd (.pull a)], pres, false) := by
  intro rest
  unfold pullImagesLoop
  simp [hd, hpf]

/-- A loop ended by a failing pull makes the outer catch log an error; the
function still returns normally. -/
theorem pullRequiredBrowserFiles_abort_logs (env : Env) (pres : List String)
    (images : List String) (hc : env.configImages = some images)
    (hfail : (pullImagesLoop env images pres).2.2 = false) :
    (pullRequiredBrowserFiles env pres).1 =
      (pullImagesLoop env images pres).1 ++ [Event.errorLog] := by
  unfold pullRequiredBrowserFiles
  rw [hc]
  simp [hfail]

/-! ### C4 -/

/-- Environment for the C4 counterexample: two browser images configured,
none present locally, and the pull of the first one fails. -/
def envC4 : Env :=
  { fileExists := true, configImages := some ["img/a:1", "img/b:1"], present := [],
    lsFails := fun _ => false, pullFails := fun s => s == "img/a:1",
    runSelenoidFails := false, runStdout := "cid", runErrMsg := "boom",
    rmStdout := "rid" }

/-- C4 counterexample: image `img/b:1` is absent locally and listed in the
browser configuration, yet the prepare trace contains no pull for it — the
failing pull of `img/a:1` aborted the loop — refuting that every absent
image receives exactly one pull attempt regardless of the outcome of other pulls.  The failing pull itself was issued and logged. -/
theorem c4_counterexample :
    "img/b:1" ∉ envC4.present ∧
    envC4.configImages = some ["img/a:1", "img/b:1"] ∧
    Event.cmd (.pull "img/b:1") ∉ (onPrepare cfgW envC4).1 ∧
    Event.cmd (.imageLs "img/b:1") ∉ (onPrepare cfgW envC4).1 ∧
    Event.cmd (.pull "img/a:1") ∈ (onPrepare cfgW envC4).1 ∧
    Event.errorLog ∈ (onPrepare cfgW envC4).1 := by
  refine ⟨by decide, rfl, by decide, by decide, by decide, by decide⟩

/-- C4 as amended: during browser-image resolution an image present at the
time of its check is never pulled; if no pull fails, every absent image
with a successful listing is pulled exactly once; but a failing pull
aborts the loop at that image (the remaining images get neither check nor
pull), is logged by the surrounding catch and is not fatal. -/
theorem c4_pull_resolution_amended (env : Env) (imgs pres : List String)
    (im a : String) :
    (im ∈ pres → Event.cmd (.pull im) ∉ (pullImagesLoop env imgs pres).1) ∧
    ((∀ j, env.pullFails j = false) → env.lsFails im = false → im ∉ pres →
      im ∈ imgs →
      (pullImagesLoop env imgs pres).1.count (Event.cmd (.pull im)) = 1) ∧
    ((doesImageExistT env pres a).2 = false → env.pullFails a = true →
      ∀ rest, pullImagesLoop env (a :: rest) pres =
        ((doesImageExistT env pres a).1 ++ [Event.cmd (.pull a)], pres, false)) ∧
    (∀ images, env.configImages = some images →
      (pullImagesLoop env images pres).2.2 = false →
      (pullRequiredBrowserFiles env pres).1 =
        (pullImagesLoop env images pres).1 ++ [Event.errorLog]) := by
  refine ⟨fun h => pull_not_mem_of_present env imgs pres im h,
    fun hp hl hnp him => pull_count_one env imgs hp pres im hl hnp him,
    fun hd hpf => pullImagesLoop_abort env a pres hd hpf,
    fun images hc hfail => pullRequiredBrowserFiles_abort_logs env pres images hc hfail⟩

/-- Witness for the amended C4, applying it at concrete inputs: a present
image is never pulled, an absent image is pulled exactly once when pulls
succeed, and the failing pull of the counterexample environment aborts the
loop and is logged. -/
theorem c4_pull_resolution_amended_witness :
    Event.cmd (.pull "img/a:1") ∉ (pullImagesLoop envPull ["img/a:1"] ["img/a:1"]).1 ∧
    (pullImagesLoop envPull ["repo/img:1"] []).1.count
      (Event.cmd (.pull "repo/img:1")) = 1 ∧
    pullImagesLoop envC4 ["img/a:1", "img/b:1"] [] =
      ((doesImageExistT envC4 [] "img/a:1").1 ++ [Event.cmd (.pull "img/a:1")],
        [], false) ∧
    (pullRequiredBrowserFiles envC4 []).1 =
      (pullImagesLoop envC4 ["img/a:1", "img/b:1"] []).1 ++ [Event.errorLog] := by
  refine ⟨(c4_pull_resolution_amended envPull ["img/a:1"] ["img/a:1"] "img/a:1" "x").1
      (by decide),
    (c4_pull_resolution_amended envPull ["repo/img:1"] [] "repo/img:1" "x").2.1
      (fun j => rfl) rfl (by decide) (by decide),
    (c4_pull_resolution_amended envC4 [] [] "x" "img/a:1").2.2.1
      (by decide) (by decide) ["img/b:1"],
    (c4_pull_resolution_amended envC4 [] [] "x" "x").2.2.2
      ["img/a:1", "img/b:1"] rfl (by decide)⟩

/-! ### C8 -/

/-- Configuration resolved from options that set the gateway port to
5555. -/
def cfgPort : Config := mkConfig { selenoidPort := some 5555 } "linux" "/work"

/-- C8 counterexample: with `selenoidPort` configured to 5555, the gateway
run command still maps ports with the hard-coded string `4444:4444`; no
argument mentions a 5555 port mapping at all, refuting that the supplied
gateway port is used for the host-to-container mapping. -/
theorem c8_counterexample :
    cfgPort.selenoidPort = 5555 ∧
    "5555:4444" ∉ selenoidStartArgs cfgPort ∧
    "4444:5555" ∉ selenoidStartArgs cfgPort ∧
    "5555:5555" ∉ selenoidStartArgs cfgPort ∧
    (selenoidStartArgs cfgPort)[4]? = some "-p" ∧
    (selenoidStartArgs cfgPort)[5]? = some "4444:4444" := by
  refine ⟨rfl, by decide, by decide, by decide, rfl, rfl⟩

/-- C8 as amended: the gateway run command always maps host port 4444 to
container port 4444, ignoring the configured `selenoidPort`; that option
is used only inside the UI container's `--selenoid-uri` argument, while
the UI `run` maps the configured `port` to container port 8080. -/
theorem c8_port_mapping_amended (cfg : Config) :
    (selenoidStartArgs cfg)[4]? = some "-p" ∧
    (selenoidStartArgs cfg)[5]? = some "4444:4444" ∧
    ("http://" ++ cfg.selenoidContainerName ++ ":" ++ toString cfg.selenoidPort) ∈
      selenoidUiStartArgs cfg ∧
    (toString cfg.port ++ ":8080") ∈ selenoidUiStartArgs cfg := by
  refine ⟨rfl, rfl, ?_, ?_⟩ <;> simp [selenoidUiStartArgs]

/-! ### C9 -/

theorem backslash_not_mem_backslashesToSlashes (l : List Char) :
    '\\' ∉ backslashesToSlashes l := by
  intro h
  rcases List.mem_map.mp h with ⟨c, _, hc⟩
  by_cases h' : c = '\\' <;> simp [h'] at hc

/-- C9: the resolved mount path is always expressed with forward-slash
separators: on win32 the constructor converts every backslash (none
remains in the result) and lowercases the first capital C, so a joined
path starting with the `C` drive letter comes out starting with `c`; on
every other platform the resolution is the plain POSIX join, whose
inserted separator is a forward slash.  The path is computed once, inside
the constructor, as a pure function of platform, working directory and the
configured relative path. -/
theorem c9_posix_mount_path (cwd raw : List Char) (p : String) :
    '\\' ∉ resolveConfigPathChars "win32" cwd raw ∧
    (∀ cs, winJoinChars cwd raw = 'C' :: cs →
      ∃ ds, resolveConfigPathChars "win32" cwd raw = 'c' :: ds) ∧
    (p ≠ "win32" → resolveConfigPathChars p cwd raw = cwd ++ '/' :: raw) ∧
    (∀ o : ServiceOptions, ∀ w : String,
      (mkConfig o p w).selenoidBrowsersConfigPath =
        String.mk (resolveConfigPathChars p w.data
          (o.pathToBrowsersConfig.getD "./browsers.json").data)) := by
  refine ⟨?_, ?_, ?_, fun o w => rfl⟩
  · unfold resolveConfigPathChars
    rw [if_pos rfl]
    exact backslash_not_mem_backslashesToSlashes _
  · intro cs hcs
    refine ⟨backslashesToSlashes cs, ?_⟩
    unfold resolveConfigPathChars
    rw [if_pos rfl, hcs]
    simp [lowerFirstC, backslashesToSlashes]
  · intro hp
    unfold resolveConfigPathChars
    rw [if_neg hp]
    rfl

/-- Witness for C9 at a concrete win32 working directory `C:\w` and
relative path `a`: the win32-resolved path has no backslash and starts
with the lowercased drive letter, while the linux resolution is the plain
POSIX join. -/
theorem c9_posix_mount_path_witness :
    '\\' ∉ resolveConfigPathChars "win32" ['C', ':', '\\', 'w'] ['a'] ∧
    (∃ ds, resolveConfigPathChars "win32" ['C', ':', '\\', 'w'] ['a'] = 'c' :: ds) ∧
    resolveConfigPathChars "linux" ['C', ':', '\\', 'w'] ['a'] =
      ['C', ':', '\\', 'w'] ++ '/' :: ['a'] := by
  have h := c9_posix_mount_path ['C', ':', '\\', 'w'] ['a'] "linux"
  exact ⟨h.1, h.2.1 [':', '\\', 'w', '\\', 'a'] (by decide), h.2.2.1 (by decide)⟩

/-! ### C10 -/

/-- C10: the singular `skipAutoPullImage` option is dead configuration:
for any two option records that differ only in it, the resolved
configurations drive `onPrepare` and `onComplete` to identical event
traces and results in every environment.  The constructor gives it the
default `false` when absent, while the plural `skipAutoPullImages` — the
field that actually gates pulling — receives no default and is passed
through unchanged. -/
theorem c10_skipAutoPullImage_no_effect (o : ServiceOptions) (b : Option Bool)
    (p w : String) (env : Env) :
    onPrepare (mkConfig { o with skipAutoPullImage := b } p w) env =
      onPrepare (mkConfig o p w) env ∧
    onComplete (mkConfig { o with skipAutoPullImage := b } p w) env =
      onComplete (mkConfig o p w) env ∧
    (o.skipAutoPullImage = none → (mkConfig o p w).skipAutoPullImage = false) ∧
    (mkConfig o p w).skipAutoPullImages = o.skipAutoPullImages := by
  refine ⟨rfl, rfl, ?_, rfl⟩
  intro h
  simp [mkConfig, h]

/-- Witness for C10: enabling the dead singular option on the empty
options record changes nothing about the prepare run, and the empty record
resolves the singular option to false. -/
theorem c10_skipAutoPullImage_no_effect_witness :
    onPrepare (mkConfig { ({} : ServiceOptions) with skipAutoPullImage := some true }
      "linux" "/work") envPull = onPrepare (mkConfig {} "linux" "/work") envPull ∧
    (mkConfig ({} : ServiceOptions) "linux" "/work").skipAutoPullImage = false := by
  have h := c10_skipAutoPullImage_no_effect {} (some true) "linux" "/work" envPull
  exact ⟨h.1, h.2.2.1 rfl⟩

end Selenoid
